import Mathlib

/-!
Verification of the type-to-schema inference engine and route assembly of a
TypeScript-to-OpenAPI generator (`src/index.ts`).

The repository code under verification is the `OpenAPIGenerator` class:
`extractTypeSchema` (type resolution across source files plus component
registration), `getSchemaForType` (the recursive schema inference walk),
`getTypeString` (the primitive-kind table), `extractPathParameters` and
`addRoute` (route-to-operation assembly).

The generator queries two external collaborators that are not part of the
repository's own code: the ts-morph project (source files with a
type-alias lookup that can succeed, miss, or throw) and ts-morph `Type`
values.  Those are embedded as the capability set the design document
ascribes to them: a Declaration Source is a lookup-by-name capability, and
a Type Handle is a tagged structural variant answering the predicate set
{isArray, isEnum, isObject, isNumber/isNumberLiteral, isString/isStringLiteral,
isBoolean/isBooleanLiteral, isNull, isUndefined} with accessors for the array
element type, the ordered enum literal values, and the object properties.
-/

/-- A literal value as returned by ts-morph `getLiteralValue()` on a union
member: a string or a numeric literal. -/
inductive Lit where
  | str (s : String)
  | num (n : Int)
deriving DecidableEq, Repr

/-- A structural Type Handle: the tagged variant of the shapes the generator
distinguishes on a ts-morph `Type`.  `enum` is the finite-value-set idiom (a
type whose `isEnum()` capability answers true, carrying its ordered literal
member values); `obj` carries the property descriptors in declaration order;
`other` is any type on which every predicate in the capability set answers
false (e.g. `unknown`, a mixed union). -/
inductive Ty where
  | num
  | numLit (value : Int)
  | str
  | strLit (value : String)
  | bool
  | boolLit (value : Bool)
  | nullTy
  | undefinedTy
  | arr (elem : Ty)
  | enum (values : List Lit)
  | obj (props : List (String × Ty))
  | other

/-- `Type.isArray()` of ts-morph. -/
def Ty.isArray : Ty → Bool
  | .arr _ => true
  | _ => false

/-- `Type.isEnum()` of ts-morph: true exactly on the finite-value-set idiom. -/
def Ty.isEnum : Ty → Bool
  | .enum _ => true
  | _ => false

/-- `Type.isObject()` of ts-morph: true on object types; array types are
object types as well. -/
def Ty.isObject : Ty → Bool
  | .obj _ => true
  | .arr _ => true
  | _ => false

/-- `Type.isNumber()` of ts-morph. -/
def Ty.isNumber : Ty → Bool
  | .num => true
  | _ => false

/-- `Type.isNumberLiteral()` of ts-morph. -/
def Ty.isNumberLiteral : Ty → Bool
  | .numLit _ => true
  | _ => false

/-- `Type.isString()` of ts-morph. -/
def Ty.isString : Ty → Bool
  | .str => true
  | _ => false

/-- `Type.isStringLiteral()` of ts-morph. -/
def Ty.isStringLiteral : Ty → Bool
  | .strLit _ => true
  | _ => false

/-- `Type.isBoolean()` of ts-morph. -/
def Ty.isBoolean : Ty → Bool
  | .bool => true
  | _ => false

/-- `Type.isBooleanLiteral()` of ts-morph. -/
def Ty.isBooleanLiteral : Ty → Bool
  | .boolLit _ => true
  | _ => false

/-- `Type.isNull()` of ts-morph. -/
def Ty.isNull : Ty → Bool
  | .nullTy => true
  | _ => false

/-- `Type.isUndefined()` of ts-morph. -/
def Ty.isUndefined : Ty → Bool
  | .undefinedTy => true
  | _ => false

/-- `Type.getUnionTypes().map(t => t.getLiteralValue())` on an enum handle:
the ordered literal member values (declaration order). -/
def Ty.enumLiteralValues : Ty → List Lit
  | .enum values => values
  | _ => []

/-- The schema fragments the generator constructs (`SchemaObject` values of
`openapi3-ts` that actually occur in `src/index.ts`):
`prim t` is the record with a single key, rendered as the JSON object with
only a type key; `arr items` is the array wrapper with a type key holding
the text array and an items key; `enum values` is the record with a type key
holding the text string and an enum key holding the literal values;
`obj properties` is the record with a type key holding the text object and a
properties key.  `prim "object"` is therefore the bare object fragment with
NO properties key, distinct from `obj properties`. -/
inductive Schema where
  | prim (type : String)
  | arr (items : Schema)
  | enum (values : List Lit)
  | obj (properties : List (String × Schema))

/-- The value of the type key of a fragment as serialized (lines 264, 278-279,
285-286, 310-311, 316-317 of `src/index.ts` fix it per record shape). -/
def Schema.typeField : Schema → String
  | .prim t => t
  | .arr _ => "array"
  | .enum _ => "string"
  | .obj _ => "object"

/-- `getTypeString` (`src/index.ts` lines 321-329): the primitive-kind table,
an if-chain over the predicate capability set with the string kind as the
documented default fallback. -/
def getTypeString (type : Ty) : String :=
  if type.isNumberLiteral || type.isNumber then "number"
  else if type.isStringLiteral || type.isString then "string"
  else if type.isBooleanLiteral || type.isBoolean then "boolean"
  else if type.isArray then "array"
  else if type.isObject then "object"
  else if type.isNull || type.isUndefined then "null"
  else "string"

/-- The per-property fragment of the object branch of `getSchemaForType`
(`src/index.ts` lines 293-305): a property whose own type is an enum is
recursed into a full enum fragment; any other property is reduced to the bare
kind tag computed by `getTypeString` (no recursion into nested objects or
arrays). -/
def propertySchema (propType : Ty) : Schema :=
  if propType.isEnum then
    Schema.enum propType.enumLiteralValues
  else
    Schema.prim (getTypeString propType)

/-- `getSchemaForType` (`src/index.ts` lines 273-319).  The match arms are in
the order of the source's predicate checks: `isArray()` first (recursing
deeply into the element type), then `isEnum()`, then `isObject()` (mapping
each property through the shallow `propertySchema` rule), then the
`getTypeString` fallback for everything else. -/
def getSchemaForType : Ty → Schema
  | Ty.arr elem => Schema.arr (getSchemaForType elem)
  | Ty.enum values => Schema.enum values
  | Ty.obj props => Schema.obj (props.map (fun prop => (prop.1, propertySchema prop.2)))
  | type => Schema.prim (getTypeString type)

/-- Outcome of `sourceFile.getTypeAlias(typeName)` followed (on a hit) by
`typeAlias.getType()`: a hit carries the aliased structural type; a miss is
`getTypeAlias` returning `undefined`; `failure` is `getTypeAlias` throwing
(a malformed or unreadable source). -/
inductive LookupResult where
  | found (aliasedType : Ty)
  | notFound
  | failure

/-- A Declaration Source as the generator uses it: the lookup-by-name
capability of a ts-morph source file. -/
def SourceFile : Type := String → LookupResult

/-- The resolution loop of `extractTypeSchema` (`src/index.ts` lines 238-248):
scan the project's source files in order, `try` a type-alias lookup on each,
`break` on the first truthy hit, and on a throw `continue` with the next
source exactly as on a miss. -/
def findTypeAlias (sourceFiles : List SourceFile) (typeName : String) : Option Ty :=
  match sourceFiles with
  | [] => none
  | sourceFile :: rest =>
    match sourceFile typeName with
    | LookupResult.found t => some t
    | LookupResult.notFound => findTypeAlias rest typeName
    | LookupResult.failure => findTypeAlias rest typeName

/-- JavaScript object assignment into a string-keyed record
(`record[key] = value`): replace the value of an existing key, otherwise
append the new key.  Used for the component registry
(`this.spec.components.schemas[typeName] = schema`), for path items, for
operations of a path item and for response objects. -/
def setAssoc {α : Type} : List (String × α) → String → α → List (String × α)
  | [], key, value => [(key, value)]
  | (k, v) :: rest, key, value =>
    if k = key then (k, value) :: rest
    else (k, v) :: setAssoc rest key value

/-- `extractTypeSchema` (`src/index.ts` lines 236-271).  Resolution failure
throws (`Except.error`) the message naming the missing type.  On a hit the
full inferred schema is written into the component registry under the
requested name, and the returned fragment re-wraps the element schema when
the resolved type is an array (`tsType.isArray()` holds exactly on the
`Ty.arr` constructor, whose element is `getArrayElementType()`). -/
def extractTypeSchema (sourceFiles : List SourceFile)
    (schemas : List (String × Schema)) (typeName : String) :
    Except String (Schema × List (String × Schema)) :=
  match findTypeAlias sourceFiles typeName with
  | none => Except.error ("Type '" ++ typeName ++ "' not found in any source files")
  | some tsType =>
    let schema := getSchemaForType tsType
    let schemas1 := setAssoc schemas typeName schema
    match tsType with
    | Ty.arr elementType =>
      Except.ok (Schema.arr (getSchemaForType elementType), schemas1)
    | _ => Except.ok (schema, schemas1)

/-- The opening brace character. -/
def openBrace : Char := Char.ofNat 123

/-- The closing brace character. -/
def closeBrace : Char := Char.ofNat 125

/-- The global scan of `path.match(/{([^}]+)}/g)` followed by
`match.slice(1, -1)` on each full match (`src/index.ts` lines 114-117),
as a single left-to-right pass: outside a candidate match (`none` state) an
opening brace starts collecting; while collecting (`some acc` state) a
closing brace ends the match, which is kept only when at least one character
was collected (the regex requires one or more non-closing-brace characters);
any other character, an opening brace included, is collected.  An unclosed
candidate at the end of the string matches nothing, exactly as the regex,
which finds no further match once no closing brace remains. -/
def extractParamsGo : List Char → Option (List Char) → List String
  | [], _ => []
  | c :: rest, none =>
    if c = openBrace then extractParamsGo rest (some [])
    else extractParamsGo rest none
  | c :: rest, some acc =>
    if c = closeBrace then
      if acc = [] then extractParamsGo rest none
      else acc.asString :: extractParamsGo rest none
    else extractParamsGo rest (some (acc ++ [c]))

/-- `extractPathParameters` (`src/index.ts` lines 114-117): the placeholder
names occurring in a route path, in order of occurrence; an absent match
(`null`) yields the empty list. -/
def extractPathParameters (path : String) : List String :=
  extractParamsGo path.toList none

/-- JavaScript `value || default` on an optional string: `undefined` and the
empty string are both falsy. -/
def jsOrString (value : Option String) (default : String) : String :=
  match value with
  | some v => if v = "" then default else v
  | none => default

/-- `PathParameterDefinition` of `src/types.ts`. -/
structure PathParameterDefinition where
  description : Option String

/-- An entry of `route.queryParameters` (`Omit` of `QueryParameter` without
its name, `src/types.ts`); the schema is passed through opaquely as a
fragment. -/
structure QueryParameterDef where
  required : Bool
  schema : Schema
  description : Option String

/-- `HeaderDefinition` of `src/types.ts`; the schema is passed through
opaquely as a fragment. -/
structure HeaderDefinition where
  name : String
  required : Option Bool
  schema : Schema
  description : Option String

/-- `ResponseDefinition` of `src/types.ts`. -/
structure ResponseDefinition where
  statusCode : Nat
  description : String
  type : Option String

/-- `RouteDefinition` of `src/types.ts`.  Optional string-keyed record fields
(`parameters`, `queryParameters`) and optional arrays (`headers.request`,
`headers.response`, `security`) are embedded as lists, the empty list
standing for an absent field — the generator only ever iterates or looks up
in them, on which absent and empty behave alike. -/
structure RouteDefinition where
  path : String
  method : String
  description : Option String
  requestType : Option String
  parameters : List (String × PathParameterDefinition)
  queryParameters : List (String × QueryParameterDef)
  requestHeaders : List HeaderDefinition
  responseHeaders : List HeaderDefinition
  security : List String
  responses : List ResponseDefinition

/-- A `ParameterObject` as `addRoute` constructs it; `paramIn` is the
location field (the source's reserved-word field holding path, query or
header). -/
structure ParameterObject where
  name : String
  paramIn : String
  required : Bool
  schema : Schema
  description : Option String

/-- The parameter object `addRoute` pushes for one path placeholder
(`src/index.ts` lines 136-146): location path, always required, schema always
the bare string fragment, description from the route's parameter
declarations with the named-parameter fallback text. -/
def mkPathParameter (route : RouteDefinition) (paramName : String) : ParameterObject :=
  { name := paramName
    paramIn := "path"
    required := true
    schema := Schema.prim "string"
    description := some (jsOrString
      ((route.parameters.lookup paramName).bind PathParameterDefinition.description)
      (paramName ++ " parameter")) }

/-- The path-parameter objects of `addRoute` (`src/index.ts` lines 131-147):
one per placeholder of the route path. -/
def pathParameterObjects (route : RouteDefinition) : List ParameterObject :=
  (extractPathParameters route.path).map (mkPathParameter route)

/-- The query-parameter objects of `addRoute` (`src/index.ts` lines 149-160). -/
def queryParameterObjects (route : RouteDefinition) : List ParameterObject :=
  route.queryParameters.map (fun entry =>
    { name := entry.1
      paramIn := "query"
      required := entry.2.required
      schema := entry.2.schema
      description := entry.2.description })

/-- The request-header parameter objects of `addRoute` (`src/index.ts` lines
162-173); `header.required || false` reads the optional flag with a false
default. -/
def requestHeaderObjects (route : RouteDefinition) : List ParameterObject :=
  route.requestHeaders.map (fun header =>
    { name := header.name
      paramIn := "header"
      required := header.required.getD false
      schema := header.schema
      description := header.description })

/-- The full parameter list of an operation, in the push order of `addRoute`:
path parameters, then query parameters, then request headers.  The empty
list stands for an operation without a parameters key (`addRoute` only sets
the key when the list is non-empty). -/
def buildParameters (route : RouteDefinition) : List ParameterObject :=
  pathParameterObjects route ++ queryParameterObjects route ++ requestHeaderObjects route

/-- A response-header object (`src/index.ts` lines 208-215). -/
structure HeaderObject where
  description : Option String
  schema : Schema
  required : Bool

/-- A `ResponseObject` as `addRoute` constructs it; `schema` is the
application/json content schema, `none` standing for the empty schema object
emitted when the response declares no type. -/
structure ResponseObject where
  description : String
  schema : Option Schema
  headers : List (String × HeaderObject)

/-- An `OperationObject` as `addRoute` constructs it. -/
structure OperationObject where
  description : String
  parameters : List ParameterObject
  security : List (String × List String)
  requestBody : Option Schema
  responses : List (String × ResponseObject)

/-- The mutable generator state the claims touch: the component registry
(`spec.components.schemas`) and the paths object (`spec.paths`, a path string
keyed record of method-keyed operation records). -/
structure GeneratorState where
  schemas : List (String × Schema)
  paths : List (String × List (String × OperationObject))

/-- The response-header record of a response object (`src/index.ts` lines
207-217), keyed by header name via JavaScript assignment. -/
def responseHeaderRecord (responseHeaders : List HeaderDefinition) :
    List (String × HeaderObject) :=
  responseHeaders.foldl
    (fun acc header =>
      setAssoc acc header.name
        { description := header.description
          schema := header.schema
          required := header.required.getD false })
    []

/-- The response loop of `addRoute` (`src/index.ts` lines 196-220): each
response resolves its declared type through `extractTypeSchema` (threading
the component registry, propagating its error) or carries the empty schema,
and is assigned into the responses record under its stringified status
code. -/
def buildResponses (sourceFiles : List SourceFile) (responseHeaders : List HeaderDefinition)
    (schemas : List (String × Schema)) (acc : List (String × ResponseObject)) :
    List ResponseDefinition →
    Except String (List (String × ResponseObject) × List (String × Schema))
  | [] => Except.ok (acc, schemas)
  | response :: rest =>
    match response.type with
    | some typeName =>
      match extractTypeSchema sourceFiles schemas typeName with
      | Except.error e => Except.error e
      | Except.ok (schema, schemas1) =>
        buildResponses sourceFiles responseHeaders schemas1
          (setAssoc acc (toString response.statusCode)
            { description := response.description
              schema := some schema
              headers := responseHeaderRecord responseHeaders })
          rest
    | none =>
      buildResponses sourceFiles responseHeaders schemas
        (setAssoc acc (toString response.statusCode)
          { description := response.description
            schema := none
            headers := responseHeaderRecord responseHeaders })
        rest

/-- The request-body step of `addRoute` (`src/index.ts` lines 184-193): a
declared request type is resolved through `extractTypeSchema` (threading the
component registry, propagating its error) into the application/json content
schema; without a request type no request body is set. -/
def requestBodyStep (sourceFiles : List SourceFile) (schemas : List (String × Schema)) :
    Option String → Except String (Option Schema × List (String × Schema))
  | some typeName =>
    match extractTypeSchema sourceFiles schemas typeName with
    | Except.error e => Except.error e
    | Except.ok (schema, schemas1) => Except.ok (some schema, schemas1)
  | none => Except.ok (none, schemas)

/-- `addRoute` (`src/index.ts` lines 119-224): look up or create the route
path's path item, assemble the operation (description with the empty-string
default, the parameter list, the security requirement objects, the request
body resolved from `requestType` through `extractTypeSchema`, the responses),
and store the operation under the route method.  A resolution failure in the
request type or any response type propagates to the caller. -/
def addRoute (sourceFiles : List SourceFile) (st : GeneratorState)
    (route : RouteDefinition) : Except String GeneratorState :=
  let pathItem := (st.paths.lookup route.path).getD []
  match requestBodyStep sourceFiles st.schemas route.requestType with
  | Except.error e => Except.error e
  | Except.ok (requestBody, schemas1) =>
    match buildResponses sourceFiles route.responseHeaders schemas1 [] route.responses with
    | Except.error e => Except.error e
    | Except.ok (responses, schemas2) =>
      let operation : OperationObject :=
        { description := jsOrString route.description ""
          parameters := buildParameters route
          security := route.security.map (fun scheme => (scheme, []))
          requestBody := requestBody
          responses := responses }
      Except.ok
        { schemas := schemas2
          paths := setAssoc st.paths route.path (setAssoc pathItem route.method operation) }

/-- Concrete fixture: the object type with a numeric and a string property
from the design document's array-of-objects scenario. -/
def itemTy : Ty := Ty.obj [("id", Ty.num), ("name", Ty.str)]

/-- The schema the inference walk produces for `itemTy`. -/
def itemSchema : Schema := Schema.obj [("id", Schema.prim "number"), ("name", Schema.prim "string")]

/-- Concrete fixture: a source file declaring the single type alias
equivalent to an array of `itemTy` under the name List. -/
def listSource : SourceFile := fun typeName =>
  if typeName = "List" then LookupResult.found (Ty.arr itemTy) else LookupResult.notFound

/-- Concrete fixture: a source file declaring no type alias at all. -/
def emptySource : SourceFile := fun _ => LookupResult.notFound

/-- Concrete fixture: a source file declaring the type alias T as the number
type. -/
def sourceA : SourceFile := fun typeName =>
  if typeName = "T" then LookupResult.found Ty.num else LookupResult.notFound

/-- Concrete fixture: a source file declaring the type alias T as the string
type — a different shape than `sourceA` gives the same name. -/
def sourceB : SourceFile := fun typeName =>
  if typeName = "T" then LookupResult.found Ty.str else LookupResult.notFound

/-- Concrete fixture: an unreadable source file, every lookup on which
throws. -/
def badSource : SourceFile := fun _ => LookupResult.failure

/-- Concrete fixture: a route whose path carries one placeholder and which
declares no request or response types. -/
def userRoute : RouteDefinition :=
  { path := "/users/\x7buserId\x7d"
    method := "get"
    description := none
    requestType := none
    parameters := []
    queryParameters := []
    requestHeaders := []
    responseHeaders := []
    security := []
    responses := [] }

theorem setAssoc_lookup_self {α : Type} (l : List (String × α)) (key : String) (value : α) :
    (setAssoc l key value).lookup key = some value := by
  induction l with
  | nil => simp [setAssoc, List.lookup]
  | cons hd tl ih =>
    obtain ⟨k, v⟩ := hd
    by_cases h : k = key
    · subst h
      simp [setAssoc, List.lookup]
    · have hbeq : (key == k) = false := beq_eq_false_iff_ne.mpr (Ne.symm h)
      simp [setAssoc, h, List.lookup, hbeq, ih]

theorem setAssoc_idem {α : Type} (l : List (String × α)) (key : String) (value : α) :
    setAssoc (setAssoc l key value) key value = setAssoc l key value := by
  induction l with
  | nil => simp [setAssoc]
  | cons hd tl ih =>
    obtain ⟨k, v⟩ := hd
    by_cases h : k = key
    · simp [setAssoc, h]
    · simp [setAssoc, h, ih]

theorem findTypeAlias_eq_none (sourceFiles : List SourceFile) (typeName : String)
    (h : ∀ sf ∈ sourceFiles, ∀ t, sf typeName ≠ LookupResult.found t) :
    findTypeAlias sourceFiles typeName = none := by
  induction sourceFiles with
  | nil => rfl
  | cons sf rest ih =>
    have hrest := ih (fun s hs t => h s (List.mem_cons_of_mem sf hs) t)
    cases hres : sf typeName with
    | found t => exact absurd hres (h sf (List.mem_cons_self sf rest) t)
    | notFound => simp [findTypeAlias, hres, hrest]
    | failure => simp [findTypeAlias, hres, hrest]

/-- Claim C1, counterexample: for the alias List with resolved type array of
the object with a numeric id and a string name, `extractTypeSchema` returns
the array wrapper AND writes that very array wrapper — not the element's
object schema — into the component registry under List, so the claimed
registry asymmetry does not hold on the code. -/
theorem array_register_counterexample :
    extractTypeSchema [listSource] [] "List" =
      Except.ok (Schema.arr itemSchema, [("List", Schema.arr itemSchema)]) ∧
    [("List", Schema.arr itemSchema)].lookup "List" = some (Schema.arr itemSchema) ∧
    Schema.arr itemSchema ≠ itemSchema := by
  refine ⟨rfl, rfl, fun h => ?_⟩
  simp [itemSchema] at h

/-- Claim C1, amended: whenever resolution yields an array type, the fragment
returned to the caller is the array wrapper over the element's schema, and
the entry written into the component registry under the requested name is
that same array wrapper (the full inferred schema), not the unwrapped
element schema. -/
theorem array_register_stores_wrapper (sourceFiles : List SourceFile)
    (schemas : List (String × Schema)) (typeName : String) (elemTy : Ty)
    (h : findTypeAlias sourceFiles typeName = some (Ty.arr elemTy)) :
    extractTypeSchema sourceFiles schemas typeName =
      Except.ok (Schema.arr (getSchemaForType elemTy),
        setAssoc schemas typeName (Schema.arr (getSchemaForType elemTy))) ∧
    (setAssoc schemas typeName (Schema.arr (getSchemaForType elemTy))).lookup typeName
      = some (Schema.arr (getSchemaForType elemTy)) := by
  constructor
  · simp [extractTypeSchema, h, getSchemaForType]
  · exact setAssoc_lookup_self schemas typeName (Schema.arr (getSchemaForType elemTy))

/-- Witness for the amended claim C1 at the concrete List fixture. -/
theorem array_register_stores_wrapper_witness :
    extractTypeSchema [listSource] [] "List" =
      Except.ok (Schema.arr (getSchemaForType itemTy),
        setAssoc [] "List" (Schema.arr (getSchemaForType itemTy))) :=
  (array_register_stores_wrapper [listSource] [] "List" itemTy rfl).1

/-- Claim C2: when no source file declares the requested type alias,
`extractTypeSchema` fails with the error naming the missing type, and
`addRoute` on a route whose request type is that name propagates exactly
that error to its caller instead of skipping it. -/
theorem missing_type_raises_not_found (sourceFiles : List SourceFile)
    (schemas : List (String × Schema)) (typeName : String)
    (h : ∀ sf ∈ sourceFiles, ∀ t, sf typeName ≠ LookupResult.found t) :
    extractTypeSchema sourceFiles schemas typeName =
      Except.error ("Type '" ++ typeName ++ "' not found in any source files") ∧
    ∀ (st : GeneratorState) (route : RouteDefinition),
      route.requestType = some typeName →
      addRoute sourceFiles st route =
        Except.error ("Type '" ++ typeName ++ "' not found in any source files") := by
  have hnone := findTypeAlias_eq_none sourceFiles typeName h
  have hext : ∀ schemas0 : List (String × Schema),
      extractTypeSchema sourceFiles schemas0 typeName =
        Except.error ("Type '" ++ typeName ++ "' not found in any source files") := by
    intro schemas0
    simp [extractTypeSchema, hnone]
  refine ⟨hext schemas, ?_⟩
  intro st route hreq
  simp [addRoute, requestBodyStep, hreq, hext st.schemas]

/-- Witness for claim C2 at the concrete Ghost lookup. -/
theorem missing_type_raises_not_found_witness :
    extractTypeSchema [emptySource] [] "Ghost" =
      Except.error ("Type '" ++ "Ghost" ++ "' not found in any source files") :=
  (missing_type_raises_not_found [emptySource] [] "Ghost"
    (by
      intro sf hsf t
      simp at hsf
      subst hsf
      simp [emptySource])).1

/-- Claim C3: resolution scans the declaration sources in their given order
and returns the declaration of the first source that yields a match, so a
matching source shadows every later one regardless of what the later sources
declare under the same name. -/
theorem resolution_first_match_wins (pre : List SourceFile) (sfA : SourceFile)
    (post : List SourceFile) (typeName : String) (tA : Ty)
    (hpre : ∀ sf ∈ pre, ∀ t, sf typeName ≠ LookupResult.found t)
    (hA : sfA typeName = LookupResult.found tA) :
    findTypeAlias (pre ++ sfA :: post) typeName = some tA := by
  induction pre with
  | nil => simp [findTypeAlias, hA]
  | cons sf rest ih =>
    have hrest := ih (fun s hs t => hpre s (List.mem_cons_of_mem sf hs) t)
    cases hres : sf typeName with
    | found t => exact absurd hres (hpre sf (List.mem_cons_self sf rest) t)
    | notFound => simp [findTypeAlias, hres, hrest]
    | failure => simp [findTypeAlias, hres, hrest]

/-- Witness for claim C3: two sources both declare T with different shapes
and resolution returns the first one's shape. -/
theorem resolution_first_match_wins_witness :
    findTypeAlias ([] ++ sourceA :: [sourceB]) "T" = some Ty.num :=
  resolution_first_match_wins [] sourceA [sourceB] "T" Ty.num
    (by intro sf hsf t; simp at hsf) rfl

/-- Claim C4: a lookup failure (a throwing source) is swallowed and treated
as a miss for that source only — resolution of the remaining sources is
unchanged, so a type declared by a later source is still found. -/
theorem resolution_swallows_source_failure (sfBad : SourceFile)
    (rest : List SourceFile) (typeName : String)
    (h : sfBad typeName = LookupResult.failure) :
    findTypeAlias (sfBad :: rest) typeName = findTypeAlias rest typeName ∧
    ∀ t : Ty, findTypeAlias rest typeName = some t →
      findTypeAlias (sfBad :: rest) typeName = some t := by
  have heq : findTypeAlias (sfBad :: rest) typeName = findTypeAlias rest typeName := by
    simp [findTypeAlias, h]
  exact ⟨heq, fun t ht => heq.trans ht⟩

/-- Witness for claim C4: an unreadable first source does not stop T from
being resolved in the second source. -/
theorem resolution_swallows_source_failure_witness :
    findTypeAlias [badSource, sourceA] "T" = findTypeAlias [sourceA] "T" ∧
    findTypeAlias [badSource, sourceA] "T" = some Ty.num :=
  ⟨(resolution_swallows_source_failure badSource [sourceA] "T" rfl).1,
   (resolution_swallows_source_failure badSource [sourceA] "T" rfl).2 Ty.num rfl⟩

/-- Claim C5: a type that is a union exclusively of string literal members
infers to the enum fragment whose type key is the string kind and whose enum
key lists the literal values in declaration order; in particular the
admin, user, trial, guest union yields exactly those values in that order. -/
theorem string_literal_union_infers_enum (values : List String) :
    getSchemaForType (Ty.enum (values.map Lit.str)) = Schema.enum (values.map Lit.str) ∧
    (Schema.enum (values.map Lit.str)).typeField = "string" ∧
    getSchemaForType
        (Ty.enum [Lit.str "admin", Lit.str "user", Lit.str "trial", Lit.str "guest"])
      = Schema.enum [Lit.str "admin", Lit.str "user", Lit.str "trial", Lit.str "guest"] :=
  ⟨rfl, rfl, rfl⟩

/-- Claim C6: inferring an object type walks its properties shallowly — a
property whose own type is an object (and not an enum) is reduced to the
bare object fragment with no properties key, a property whose own type is an
enum is recursed fully into an enum fragment — while the top-level walk
recurses deeply into array element types. -/
theorem object_properties_shallow_walk (props : List (String × Ty)) :
    getSchemaForType (Ty.obj props)
      = Schema.obj (props.map (fun prop => (prop.1, propertySchema prop.2))) ∧
    (∀ innerProps : List (String × Ty),
      propertySchema (Ty.obj innerProps) = Schema.prim "object") ∧
    (∀ values : List Lit, propertySchema (Ty.enum values) = Schema.enum values) ∧
    (∀ elemTy : Ty, getSchemaForType (Ty.arr elemTy) = Schema.arr (getSchemaForType elemTy)) :=
  ⟨rfl, fun _ => rfl, fun _ => rfl, fun _ => rfl⟩

/-- Claim C7: a type matching none of the array, enum, object, number,
string, boolean, or null/undefined predicates falls through the whole
kind table and infers to the bare string fragment, the explicit documented
default. -/
theorem unrecognized_type_defaults_to_string :
    Ty.other.isArray = false ∧ Ty.other.isEnum = false ∧ Ty.other.isObject = false ∧
    Ty.other.isNumber = false ∧ Ty.other.isNumberLiteral = false ∧
    Ty.other.isString = false ∧ Ty.other.isStringLiteral = false ∧
    Ty.other.isBoolean = false ∧ Ty.other.isBooleanLiteral = false ∧
    Ty.other.isNull = false ∧ Ty.other.isUndefined = false ∧
    getTypeString Ty.other = "string" ∧
    getSchemaForType Ty.other = Schema.prim "string" :=
  ⟨rfl, rfl, rfl, rfl, rfl, rfl, rfl, rfl, rfl, rfl, rfl, rfl, rfl⟩

/-- Claim C8: schema inference is total — on every well-formed acyclic Type
Handle (every value of the inductive type of handles) the walk terminates
and returns some schema fragment, never an error; `getSchemaForType` is a
total function into fragments, with no error outcome in its type. -/
theorem schema_inference_total (type : Ty) :
    ∃ s : Schema, getSchemaForType type = s ∧ ∃ ps : Schema, propertySchema type = ps :=
  ⟨getSchemaForType type, rfl, propertySchema type, rfl⟩

/-- Claim C9: re-running resolve-and-infer for the same name against the same
unchanged source files, starting from the registry state the first run
produced, returns the structurally identical fragment and leaves the
registry unchanged — the walk is deterministic and registration is
idempotent. -/
theorem inference_idempotent_on_unchanged_sources (sourceFiles : List SourceFile)
    (schemas : List (String × Schema)) (typeName : String) (s : Schema)
    (schemas1 : List (String × Schema))
    (h : extractTypeSchema sourceFiles schemas typeName = Except.ok (s, schemas1)) :
    extractTypeSchema sourceFiles schemas1 typeName = Except.ok (s, schemas1) := by
  unfold extractTypeSchema at h ⊢
  cases hfind : findTypeAlias sourceFiles typeName with
  | none =>
    rw [hfind] at h
    exact absurd h (by simp)
  | some tsType =>
    rw [hfind] at h
    cases tsType <;>
      (simp at h
       obtain ⟨hs, hsc⟩ := h
       subst hsc
       subst hs
       simp [getSchemaForType, setAssoc_idem])

/-- Witness for claim C9: the second resolve-and-infer of List returns the
same fragment and registry as the first. -/
theorem inference_idempotent_witness :
    extractTypeSchema [listSource] [("List", Schema.arr itemSchema)] "List" =
      Except.ok (Schema.arr itemSchema, [("List", Schema.arr itemSchema)]) :=
  inference_idempotent_on_unchanged_sources [listSource] [] "List"
    (Schema.arr itemSchema) [("List", Schema.arr itemSchema)] rfl

/-- Claim C10: every placeholder of a route's path string is emitted as an
operation parameter with location path, required flag set and the bare
string schema, this for every route whatever its parameter declarations;
conversely every path-located parameter of the operation is required with
the string schema; and on a successful `addRoute` the stored operation
carries exactly this parameter list. -/
theorem path_placeholders_emit_required_string_params (route : RouteDefinition)
    (paramName : String) (sourceFiles : List SourceFile) (st st1 : GeneratorState)
    (hmem : paramName ∈ extractPathParameters route.path)
    (hrun : addRoute sourceFiles st route = Except.ok st1) :
    (∃ param ∈ buildParameters route,
      param.name = paramName ∧ param.paramIn = "path" ∧ param.required = true ∧
      param.schema = Schema.prim "string") ∧
    (∀ param ∈ buildParameters route, param.paramIn = "path" →
      param.required = true ∧ param.schema = Schema.prim "string") ∧
    (∃ pathItem : List (String × OperationObject), ∃ op : OperationObject,
      st1.paths.lookup route.path = some pathItem ∧
      pathItem.lookup route.method = some op ∧
      op.parameters = buildParameters route) := by
  refine ⟨?_, ?_, ?_⟩
  · refine ⟨mkPathParameter route paramName, ?_, rfl, rfl, rfl, rfl⟩
    unfold buildParameters
    exact List.mem_append_left _
      (List.mem_append_left _ (List.mem_map_of_mem (mkPathParameter route) hmem))
  · intro param hparam hin
    unfold buildParameters at hparam
    rcases List.mem_append.mp hparam with hpq | hhdr
    · rcases List.mem_append.mp hpq with hpath | hquery
      · rcases List.mem_map.mp hpath with ⟨q, hq, rfl⟩
        exact ⟨rfl, rfl⟩
      · rcases List.mem_map.mp hquery with ⟨entry, hentry, rfl⟩
        simp [queryParameterObjects] at hin
    · rcases List.mem_map.mp hhdr with ⟨header, hheader, rfl⟩
      simp [requestHeaderObjects] at hin
  · unfold addRoute at hrun
    cases hrb : requestBodyStep sourceFiles st.schemas route.requestType with
    | error e =>
      rw [hrb] at hrun
      exact absurd hrun (by simp)
    | ok pair =>
      obtain ⟨requestBody, schemas1⟩ := pair
      rw [hrb] at hrun
      dsimp only at hrun
      cases hresp : buildResponses sourceFiles route.responseHeaders schemas1 [] route.responses with
      | error e =>
        rw [hresp] at hrun
        exact absurd hrun (by simp)
      | ok pair2 =>
        obtain ⟨responses, schemas2⟩ := pair2
        rw [hresp] at hrun
        simp at hrun
        subst hrun
        exact ⟨_, _, setAssoc_lookup_self _ _ _, setAssoc_lookup_self _ _ _, rfl⟩

/-- Witness for claim C10 at a concrete route with one placeholder and no
declared types: the placeholder becomes a required, string-typed path
parameter of the operation `addRoute` stores. -/
theorem path_placeholders_witness :
    (∃ param ∈ buildParameters userRoute,
      param.name = "userId" ∧ param.paramIn = "path" ∧ param.required = true ∧
      param.schema = Schema.prim "string") ∧
    (∃ pathItem : List (String × OperationObject), ∃ op : OperationObject,
      (GeneratorState.mk []
        [(userRoute.path, [(userRoute.method,
          { description := ""
            parameters := buildParameters userRoute
            security := []
            requestBody := none
            responses := [] })])]).paths.lookup userRoute.path = some pathItem ∧
      pathItem.lookup userRoute.method = some op ∧
      op.parameters = buildParameters userRoute) := by
  have h := path_placeholders_emit_required_string_params userRoute "userId" []
    (GeneratorState.mk [] [])
    (GeneratorState.mk []
      [(userRoute.path, [(userRoute.method,
        { description := ""
          parameters := buildParameters userRoute
          security := []
          requestBody := none
          responses := [] })])])
    (by decide) rfl
  exact ⟨h.1, h.2.2⟩
